import Mathlib

/-!
Verification of the bisulfite strand-model and primer thermodynamics/structure
engine of the Bisulfite-DNA-Primer-Designer repository (src/services/dnaUtils.ts).

Strings are modelled as Lean `String` (lists of characters); JavaScript numbers
are modelled as exact rationals `ℚ` where the code only performs field
arithmetic on decimal literals, and as real numbers `ℝ` where the code uses
`Math.log` / `Math.sqrt`.  `toUpperCase` / `toLowerCase` are modelled on the
ASCII letters (all inputs of this engine are ASCII DNA text); every other
character is returned unchanged, exactly as JavaScript does on ASCII input.
-/

/-- The six strand views of the viewer (`StrandType` in src/types.ts). -/
inductive StrandType
  | F | R | OT | CTOT | OB | CTOB
  deriving DecidableEq

/-- `ThermodynamicSettings` from src/types.ts: oligo concentration (µM),
monovalent cation concentration (mM), divalent Mg concentration (mM) and
free-dNTP concentration (mM). -/
structure ThermodynamicSettings where
  oligoConc : ℚ
  naConc : ℚ
  mgConc : ℚ
  dntpConc : ℚ

/-- Result record of `calculateThermodynamics`: melting temperature (°C),
duplex free energy at 37 °C (kcal/mol) and GC percentage. -/
structure ThermodynamicResult where
  tm : ℝ
  dg : ℚ
  gc : ℚ

/-- One hit of `searchSequence`.  The source field `end` is a Lean keyword and
is called `stop` here; it is the inclusive end index. -/
structure SearchHit where
  start : ℕ
  stop : ℕ
  mismatches : ℕ
  deriving DecidableEq

/-- Result of the dimer/hairpin scorers: a free-energy estimate and a 3-line
textual alignment. -/
structure StructureAnalysis where
  dg : ℚ
  alignment : List String
  deriving DecidableEq

/-- JavaScript `toLowerCase` restricted to the ASCII letters (identity on
every other character). -/
def asciiLower (c : Char) : Char :=
  if c = 'A' then 'a' else if c = 'B' then 'b' else if c = 'C' then 'c' else
  if c = 'D' then 'd' else if c = 'E' then 'e' else if c = 'F' then 'f' else
  if c = 'G' then 'g' else if c = 'H' then 'h' else if c = 'I' then 'i' else
  if c = 'J' then 'j' else if c = 'K' then 'k' else if c = 'L' then 'l' else
  if c = 'M' then 'm' else if c = 'N' then 'n' else if c = 'O' then 'o' else
  if c = 'P' then 'p' else if c = 'Q' then 'q' else if c = 'R' then 'r' else
  if c = 'S' then 's' else if c = 'T' then 't' else if c = 'U' then 'u' else
  if c = 'V' then 'v' else if c = 'W' then 'w' else if c = 'X' then 'x' else
  if c = 'Y' then 'y' else if c = 'Z' then 'z' else c

/-- JavaScript `toUpperCase` restricted to the ASCII letters (identity on
every other character). -/
def asciiUpper (c : Char) : Char :=
  if c = 'a' then 'A' else if c = 'b' then 'B' else if c = 'c' then 'C' else
  if c = 'd' then 'D' else if c = 'e' then 'E' else if c = 'f' then 'F' else
  if c = 'g' then 'G' else if c = 'h' then 'H' else if c = 'i' then 'I' else
  if c = 'j' then 'J' else if c = 'k' then 'K' else if c = 'l' then 'L' else
  if c = 'm' then 'M' else if c = 'n' then 'N' else if c = 'o' then 'O' else
  if c = 'p' then 'P' else if c = 'q' then 'Q' else if c = 'r' then 'R' else
  if c = 's' then 'S' else if c = 't' then 'T' else if c = 'u' then 'U' else
  if c = 'v' then 'V' else if c = 'w' then 'W' else if c = 'x' then 'X' else
  if c = 'y' then 'Y' else if c = 'z' then 'Z' else c

/-- String-level `toLowerCase`. -/
def lowerStr (s : String) : String := ⟨s.data.map asciiLower⟩

/-- String-level `toUpperCase`. -/
def upperStr (s : String) : String := ⟨s.data.map asciiUpper⟩

/-- The `COMPLEMENTS` record lookup with its `|| b` fallback:
a↔t, c↔g case-preserving, every unrecognized character passes through. -/
def complementChar (c : Char) : Char :=
  if c = 'a' then 't' else if c = 't' then 'a' else
  if c = 'c' then 'g' else if c = 'g' then 'c' else
  if c = 'A' then 'T' else if c = 'T' then 'A' else
  if c = 'C' then 'G' else if c = 'G' then 'C' else c

/-- `getComplement`: position-wise complement of a string. -/
def getComplement (seq : String) : String := ⟨seq.data.map complementChar⟩

/-- `getReverseComplement`: complement, then reverse. -/
def getReverseComplement (seq : String) : String := ⟨(getComplement seq).data.reverse⟩

/-- The complement restricted to the four uppercase bases (identity
elsewhere); this is how the dimer scorer's pairing test behaves on its
uppercased operands. -/
def compUpper (c : Char) : Char :=
  if c = 'A' then 'T' else if c = 'T' then 'A' else
  if c = 'C' then 'G' else if c = 'G' then 'C' else c

/-- The `IUPAC_MAP` record: degenerate-code key to the list of concrete bases
it represents (`undefined`, i.e. `none`, on every other key). -/
def iupacMap (s : String) : Option (List String) :=
  if s = "A" then some ["A"] else if s = "a" then some ["A"] else
  if s = "T" then some ["T"] else if s = "t" then some ["T"] else
  if s = "C" then some ["C"] else if s = "c" then some ["C"] else
  if s = "G" then some ["G"] else if s = "g" then some ["G"] else
  if s = "R" then some ["A", "G"] else
  if s = "Y" then some ["C", "T"] else
  if s = "S" then some ["G", "C"] else
  if s = "W" then some ["A", "T"] else
  if s = "K" then some ["G", "T"] else
  if s = "M" then some ["A", "C"] else
  if s = "B" then some ["C", "G", "T"] else
  if s = "D" then some ["A", "G", "T"] else
  if s = "H" then some ["A", "C", "T"] else
  if s = "V" then some ["A", "C", "G"] else
  if s = "N" then some ["A", "T", "C", "G"] else none

/-- `isBaseCompatible` (dnaUtils.ts lines 34-39): uppercase both operands;
if the primer base is not an IUPAC key fall back to strict equality, otherwise
test membership of the template base in the represented set. -/
def isBaseCompatible (primerBase templateBase : String) : Bool :=
  match iupacMap (upperStr primerBase) with
  | none => upperStr primerBase == upperStr templateBase
  | some l => l.contains (upperStr templateBase)

/-- `Array.prototype.map` with the element index, as used by
`bisulfiteConvert` (`seq.split('').map((base, idx) => ...)`). -/
def mapWithIndex (f : ℕ → Char → Char) : ℕ → List Char → List Char
  | _, [] => []
  | i, c :: cs => f i c :: mapWithIndex f (i + 1) cs

/-- `bisulfiteConvert` (dnaUtils.ts lines 276-281): a position whose base is a
cytosine (case-insensitively) and whose index is not in the methylation set
becomes 't'; every other position is unchanged.  The index set is a list of
JavaScript numbers, modelled as integers so that negative entries are inert. -/
def bisulfiteConvert (seq : String) (methylatedIndices : List ℤ) : String :=
  ⟨mapWithIndex
    (fun idx base =>
      if asciiLower base = 'c' ∧ ¬ ((idx : ℤ) ∈ methylatedIndices) then 't' else base)
    0 seq.data⟩

/-- `getStrandSequence` (dnaUtils.ts lines 283-300): derive one of the six
strand views from the top strand and the two methylation index sets. -/
def getStrandSequence (f_seq : String) (methylatedF methylatedR : List ℤ)
    (type : StrandType) : String :=
  let f := lowerStr f_seq
  let r := getComplement f
  match type with
  | StrandType.F => f
  | StrandType.R => r
  | StrandType.OT => bisulfiteConvert f methylatedF
  | StrandType.CTOT => getComplement (bisulfiteConvert f methylatedF)
  | StrandType.OB => bisulfiteConvert r methylatedR
  | StrandType.CTOB => getComplement (bisulfiteConvert r methylatedR)

/-- The inner comparison loop of `searchSequence`: count incompatible pairs,
aborting as soon as the count exceeds the allowed maximum (the `break`). -/
def countMismatches (maxMismatches : ℕ) : List (Char × Char) → ℕ → ℕ
  | [], acc => acc
  | (p, s) :: rest, acc =>
    let acc2 := if isBaseCompatible (String.mk [p]) (String.mk [s]) then acc else acc + 1
    if maxMismatches < acc2 then acc2 else countMismatches maxMismatches rest acc2

/-- `searchSequence` (dnaUtils.ts lines 252-274): slide the query (reversed
first on the reverse-displayed strand types R/CTOT/OB) over the uppercased
strand, recording every window whose mismatch count is within budget. -/
def searchSequence (strandSeq query : String) (strandType : StrandType)
    (maxMismatches : ℕ) : List SearchHit :=
  let n := strandSeq.length
  let m := query.length
  if m = 0 ∨ n < m then [] else
  let isReversePhysical :=
    strandType = StrandType.R ∨ strandType = StrandType.CTOT ∨ strandType = StrandType.OB
  let searchSubject := (upperStr strandSeq).data
  let searchPattern :=
    if isReversePhysical then (upperStr ⟨query.data.reverse⟩).data else (upperStr query).data
  (List.range (n - m + 1)).filterMap (fun i =>
    let window := (searchSubject.drop i).take m
    let mis := countMismatches maxMismatches (searchPattern.zip window) 0
    if mis ≤ maxMismatches then some ⟨i, i + m - 1, mis⟩ else none)

/-- Pointwise statement of the bisulfite conversion rule for an arbitrary
strand: a cytosine at a methylated index is kept, a cytosine at any other
index becomes 't', every non-cytosine base is unchanged. -/
def bisulfitePointwise (S : String) (M : List ℤ) (i : ℕ) : Prop :=
  (asciiLower (S.data.getD i ' ') = 'c' →
    (((i : ℤ) ∈ M → (bisulfiteConvert S M).data.getD i ' ' = S.data.getD i ' ') ∧
     (¬ ((i : ℤ) ∈ M) → (bisulfiteConvert S M).data.getD i ' ' = 't'))) ∧
  (asciiLower (S.data.getD i ' ') ≠ 'c' →
    (bisulfiteConvert S M).data.getD i ' ' = S.data.getD i ' ')

/-- Pointwise statement of the rule for the derived OT strand: every 'c' of
the lowercased top strand at an index of the methylated-top set remains 'c',
every other 'c' becomes 't', every non-'c' base is unchanged. -/
def otPointwise (f : String) (mF mR : List ℤ) (j : ℕ) : Prop :=
  ((lowerStr f).data.getD j ' ' = 'c' →
    (((j : ℤ) ∈ mF → (getStrandSequence f mF mR StrandType.OT).data.getD j ' ' = 'c') ∧
     (¬ ((j : ℤ) ∈ mF) → (getStrandSequence f mF mR StrandType.OT).data.getD j ' ' = 't'))) ∧
  ((lowerStr f).data.getD j ' ' ≠ 'c' →
    (getStrandSequence f mF mR StrandType.OT).data.getD j ' ' = (lowerStr f).data.getD j ' ')

/-- Amended F-part of claim C2: the derived F strand is the lowercased top
strand. -/
def c2AmendedF (S : String) (mF mR : List ℤ) : Prop :=
  getStrandSequence S mF mR StrandType.F = lowerStr S

/-- Amended R-part of claim C2: the derived R strand is the position-aligned
complement of the lowercased top strand (not the reverse complement). -/
def c2AmendedR (S : String) (mF mR : List ℤ) (i : ℕ) : Prop :=
  (getStrandSequence S mF mR StrandType.R).data.getD i ' ' =
    complementChar ((lowerStr S).data.getD i ' ')

/-- Amended claim C9: if exactly one of the two inputs is the empty string the
result is `false`; if both are empty the strict-equality fallback returns
`true`; the function is total and never throws. -/
def c9Amended (p t : String) : Prop :=
  (p = "" ∧ t ≠ "" → isBaseCompatible p t = false) ∧
  (p ≠ "" ∧ t = "" → isBaseCompatible p t = false) ∧
  (p = "" ∧ t = "" → isBaseCompatible p t = true)

/-- Skip to just after the first ']' of a character list, if any. -/
def afterRBracket : List Char → Option (List Char)
  | [] => none
  | c :: cs => if c = ']' then some cs else afterRBracket cs

/-- Fuel-indexed worker for the bracket-tail removal.  Each recursive call
consumes at least one character of the input, so `l.length` fuel always
suffices. -/
def stripBracketAux : ℕ → List Char → List Char
  | 0, l => l
  | _ + 1, [] => []
  | fuel + 1, c :: cs =>
    if c = '[' then
      match afterRBracket cs with
      | some rest => stripBracketAux fuel rest
      | none => c :: stripBracketAux fuel cs
    else c :: stripBracketAux fuel cs

/-- The global replacement of every bracket segment by the empty string: an
opening bracket together with everything up to the first following closing
bracket is removed; an opening bracket with no later closing bracket stays. -/
def stripBracketTail (l : List Char) : List Char := stripBracketAux l.length l

/-- The binding region of a raw primer sequence: bracket-delimited tail
segments removed, non-letter characters removed, lowercased. -/
def bindingSeqChars (rawSequence : String) : List Char :=
  ((stripBracketTail rawSequence.data).filter Char.isAlpha).map asciiLower

/-- The SantaLucia 1998 nearest-neighbor table `NN_PARAMS`: enthalpy
(kcal/mol) and entropy (cal/(mol*K)) of each dinucleotide step. -/
def nnParams (c1 c2 : Char) : Option (ℚ × ℚ) :=
  if c1 = 'a' ∧ c2 = 'a' then some (-7.9, -22.2) else
  if c1 = 't' ∧ c2 = 't' then some (-7.9, -22.2) else
  if c1 = 'a' ∧ c2 = 't' then some (-7.2, -20.4) else
  if c1 = 't' ∧ c2 = 'a' then some (-7.2, -21.3) else
  if c1 = 'c' ∧ c2 = 'a' then some (-8.5, -22.7) else
  if c1 = 't' ∧ c2 = 'g' then some (-8.5, -22.7) else
  if c1 = 'g' ∧ c2 = 't' then some (-8.4, -22.4) else
  if c1 = 'a' ∧ c2 = 'c' then some (-8.4, -22.4) else
  if c1 = 'c' ∧ c2 = 't' then some (-7.8, -21.0) else
  if c1 = 'a' ∧ c2 = 'g' then some (-7.8, -21.0) else
  if c1 = 'g' ∧ c2 = 'a' then some (-8.2, -22.2) else
  if c1 = 't' ∧ c2 = 'c' then some (-8.2, -22.2) else
  if c1 = 'c' ∧ c2 = 'g' then some (-10.6, -27.2) else
  if c1 = 'g' ∧ c2 = 'c' then some (-9.8, -24.4) else
  if c1 = 'g' ∧ c2 = 'g' then some (-8.0, -19.9) else
  if c1 = 'c' ∧ c2 = 'c' then some (-8.0, -19.9) else none

/-- The nearest-neighbor summation loop: accumulate the table entries of every
adjacent pair (unknown pairs contribute nothing). -/
def nnSum : List Char → ℚ × ℚ
  | c1 :: c2 :: rest =>
    let t := nnSum (c2 :: rest)
    match nnParams c1 c2 with
    | some p => (t.1 + p.1, t.2 + p.2)
    | none => t
  | _ => (0, 0)

/-- Total ΔH and ΔS of the binding region: nearest-neighbor sum, the fixed
initiation term (+0.2, -5.7), and the terminal-AT penalty (+2.2, +6.9) for
each of the two ends whose base is 'a' or 't'. -/
def dhdsTotal (rawSequence : String) : ℚ × ℚ :=
  let b := bindingSeqChars rawSequence
  let n := b.length
  let nn := nnSum b
  let init : ℚ × ℚ := (nn.1 + 0.2, nn.2 + -5.7)
  let t0 : ℚ × ℚ :=
    if b.getD 0 ' ' = 'a' ∨ b.getD 0 ' ' = 't' then (init.1 + 2.2, init.2 + 6.9) else init
  if b.getD (n - 1) ' ' = 'a' ∨ b.getD (n - 1) ' ' = 't' then (t0.1 + 2.2, t0.2 + 6.9) else t0

/-- Number of 'g'/'c' bases of the binding region. -/
def gcCount (rawSequence : String) : ℕ :=
  (bindingSeqChars rawSequence).countP (fun c => c == 'g' || c == 'c')

/-- Number of LNA-marked (uppercase) characters of the bracket-stripped raw
sequence. -/
def lnaCount (rawSequence : String) : ℕ :=
  ((stripBracketTail rawSequence.data).filter Char.isUpper).length

/-- The cleaned template slice: non-letters removed, lowercased. -/
def templateChars (templateSequence : String) : List Char :=
  (templateSequence.data.filter Char.isAlpha).map asciiLower

/-- Number of binding-region positions that have an aligned template character
and are incompatible with it. -/
def mismatchCount (rawSequence templateSequence : String) : ℕ :=
  let b := bindingSeqChars rawSequence
  let t := templateChars templateSequence
  (List.range b.length).countP (fun i =>
    decide (i < t.length) &&
      ! (isBaseCompatible (String.mk [b.getD i ' ']) (String.mk [t.getD i ' '])))

/-- `DEFAULT_THERMO_SETTINGS` of the thermodynamics module. -/
def DEFAULT_THERMO_SETTINGS : ThermodynamicSettings := ⟨0.25, 50, 3, 0.8⟩

/-- `calculateThermodynamics` (second revision in dnaUtils.ts, lines 346-462):
strip the bracket tails, return the zero sentinel for a binding region shorter
than a dinucleotide, otherwise accumulate ΔH/ΔS, compute the 1M-salt melting
temperature, apply the Owczarzy salt correction (with the all-zero-ion case
pinned to 0 K), then the LNA / MGB / mismatch adjustments, and report
(tm, ΔG at 310.15 K, GC%). -/
noncomputable def calculateThermodynamics (rawSequence : String)
    (templateSequence : String) (isMGB : Bool) (settings : ThermodynamicSettings) :
    ThermodynamicResult :=
  let n := (bindingSeqChars rawSequence).length
  if n < 2 then ⟨0, 0, 0⟩ else
  let dh := (dhdsTotal rawSequence).1
  let ds := (dhdsTotal rawSequence).2
  let R : ℝ := 1.9872
  let k : ℝ := ((max settings.oligoConc (1e-9) : ℚ) : ℝ) * 1e-6 / 4
  let tm1MK : ℝ := ((dh : ℝ) * 1000) / ((ds : ℝ) + R * Real.log k)
  let Na : ℚ := settings.naConc * 1e-3
  let Mg : ℚ := settings.mgConc * 1e-3
  let dNTP : ℚ := settings.dntpConc * 1e-3
  let MgFree : ℚ := max 0 (Mg - dNTP)
  let Mon : ℚ := Na
  let mgMonQuot : ℝ := Real.sqrt (MgFree : ℝ) / (if Mon = 0 then 1e-9 else (Mon : ℝ))
  let fGC : ℚ := (gcCount rawSequence : ℚ) / (n : ℚ)
  let tmK : ℝ :=
    if Mon = 0 ∧ MgFree = 0 then 0
    else if 0 < Mon ∧ (MgFree = 0 ∨ mgMonQuot < 0.22) then
      let lnNa : ℝ := Real.log (Mon : ℝ)
      let corr : ℝ := (4.29 * (fGC : ℝ) - 3.95) * 1e-5 * lnNa + 9.40e-6 * lnNa * lnNa
      1 / (1 / tm1MK + corr)
    else
      let lnMg : ℝ := Real.log ((max MgFree (1e-9) : ℚ) : ℝ)
      let corr : ℝ :=
        (3.92e-5 + (-9.11e-6) * lnMg) + (fGC : ℝ) * (6.26e-5 + 1.42e-5 * lnMg) +
          (1 / (2 * ((n : ℝ) - 1))) *
            ((-4.82e-4) + 5.25e-4 * lnMg + 8.31e-5 * lnMg * lnMg)
      1 / (1 / tm1MK + corr)
  let tmBase : ℝ := tmK - 273.15
  let tm : ℝ :=
    if 0 < tmK then
      let withLNA : ℝ := tmBase + (lnaCount rawSequence : ℝ) * 4.0
      let withMGB : ℝ :=
        if isMGB then withLNA + (18.0 - 0.1 * ((fGC : ℝ) * 100)) else withLNA
      if 0 < mismatchCount rawSequence templateSequence then
        withMGB - ((mismatchCount rawSequence templateSequence : ℝ) / (n : ℝ) * 100) * 1.2
      else withMGB
    else tmBase
  ⟨tm, dh - 310.15 * ds / 1000, fGC * 100⟩

/-- The pairing test of the dimer scorer's inner loop:
`b1 === getComplement(b2).toUpperCase()`. -/
def dimerMatch (b1 b2 : Char) : Bool := b1 == asciiUpper (complementChar b2)

/-- The inner loop of `findMostStableDimer` at one shift: starting at subject
index `i` with `rem` overlap positions remaining, build the match-bar
characters, the number of complementary pairs, and the energy (−2.0 per
complementary pair, +0.4 per non-complementary pair). -/
def dimerScanFrom (q1 q2Rev : List Char) (shift : ℤ) : ℕ → ℕ → List Char × ℕ × ℚ
  | _, 0 => ([], 0, 0)
  | i, rem + 1 =>
    let b1 := q1.getD i ' '
    let b2 := q2Rev.getD ((i : ℤ) - shift).toNat ' '
    let rest := dimerScanFrom q1 q2Rev shift (i + 1) rem
    if dimerMatch b1 b2 then
      ('|' :: rest.1, rest.2.1 + 1, rest.2.2 - 2.0)
    else
      (' ' :: rest.1, rest.2.1, rest.2.2 + 0.4)

/-- One iteration of the shift loop of `findMostStableDimer`: score the
overlap at this shift and keep it if it has at least 2 complementary pairs and
strictly beats the best energy so far. -/
def dimerShiftStep (q1 q2Rev : List Char) (st : ℚ × Option StructureAnalysis)
    (shift : ℤ) : ℚ × Option StructureAnalysis :=
  let overlapStart : ℤ := max 0 shift
  let overlapEnd : ℤ := min (q1.length : ℤ) (shift + q2Rev.length)
  if overlapEnd ≤ overlapStart then st else
  let scan := dimerScanFrom q1 q2Rev shift overlapStart.toNat (overlapEnd - overlapStart).toNat
  let matchChars := scan.1
  let matchCount := scan.2.1
  let currentDG := scan.2.2
  if 2 ≤ matchCount ∧ currentDG < st.1 then
    let indent1 : ℕ := if shift < 0 then shift.natAbs else 0
    let indent2 : ℕ := if 0 < shift then shift.toNat else 0
    let line1 : String :=
      "5' " ++ String.mk (List.replicate indent1 ' ') ++ String.mk q1 ++ " 3'"
    let line2 : String :=
      "   " ++
        String.mk (List.replicate (indent1 + (if 0 < shift then shift.toNat else 0)) ' ') ++
        String.mk matchChars
    let line3 : String :=
      "3' " ++ String.mk (List.replicate indent2 ' ') ++ String.mk q2Rev ++ " 5'"
    (currentDG, some ⟨currentDG, [line1, line2, line3]⟩)
  else st

/-- The shift enumeration of `findMostStableDimer`: shift runs from
−|q2|+1 up to |q1|−1. -/
def dimerShifts (len1 len2 : ℕ) : List ℤ :=
  (List.range (len1 + len2 - 1)).map (fun (j : ℕ) => (j : ℤ) - ((len2 : ℤ) - 1))

/-- `findMostStableDimer` (dnaUtils.ts lines 173-209): slide the reversed
uppercased second sequence over the first at every shift and keep the
lowest-energy alignment with at least 2 complementary pairs. -/
def findMostStableDimer (s1 s2 : String) : Option StructureAnalysis :=
  let q1 := (upperStr s1).data
  let q2 := (upperStr s2).data
  let q2Rev := q2.reverse
  ((dimerShifts q1.length q2.length).foldl (dimerShiftStep q1 q2Rev) (0, none)).2

/-- The (endOffset, stemLen, loopLen) enumeration of `findMostStableHairpin`
in source order: endOffset 0..2 outermost, then stemLen 3..12, then
loopLen 3..15. -/
def hairpinTriples : List (ℕ × ℕ × ℕ) :=
  (List.range 3).flatMap (fun e =>
    ((List.range 10).map (· + 3)).flatMap (fun sl =>
      ((List.range 13).map (· + 3)).map (fun ll => (e, sl, ll))))

/-- `substring(a, b)` for the in-bounds ordered case used by the hairpin
scorer. -/
def substringIn (l : List Char) (a b : ℕ) : List Char := (l.drop a).take (b - a)

/-- One iteration of the hairpin triple loop of `findMostStableHairpin`:
if the candidate stems fit in the sequence and the first stem equals the
reverse complement of the second, score −2.0 per stem base +0.4 per loop base
and keep the structure if it strictly beats the best energy so far. -/
def hairpinStep (seq : List Char) (st : ℚ × Option StructureAnalysis)
    (p : ℕ × ℕ × ℕ) : ℚ × Option StructureAnalysis :=
  let n := seq.length
  let endOffset := p.1
  let stemLen := p.2.1
  let loopLen := p.2.2
  let stem2End : ℤ := (n : ℤ) - endOffset
  let stem2Start : ℤ := stem2End - stemLen
  let loopStart : ℤ := stem2Start - loopLen
  let stem1Start : ℤ := loopStart - stemLen
  if stem1Start < 0 then st else
  let stem1 := substringIn seq stem1Start.toNat (stem1Start.toNat + stemLen)
  let stem2 := substringIn seq stem2Start.toNat stem2End.toNat
  let loopSeg := substringIn seq loopStart.toNat (loopStart.toNat + loopLen)
  if stem1 = (upperStr (getReverseComplement (String.mk stem2))).data then
    let dg : ℚ := (-2.0) * stemLen + 0.4 * loopLen
    if dg < st.1 then
      let pre := substringIn seq 0 stem1Start.toNat
      let suf := seq.drop stem2End.toNat
      let sufRev := suf.reverse
      let stem2Rev := stem2.reverse
      let maxLeftLen := max pre.length sufRev.length
      let line1 : String :=
        "5'-" ++ String.mk (List.replicate (maxLeftLen - pre.length) ' ') ++
          String.mk pre ++ String.mk stem1 ++ "--\\"
      let line2 : String :=
        "   " ++ String.mk (List.replicate maxLeftLen ' ') ++
          String.mk (List.replicate stemLen '|') ++ "   " ++ String.mk loopSeg
      let line3 : String :=
        "3'-" ++ String.mk (List.replicate (maxLeftLen - sufRev.length) ' ') ++
          String.mk sufRev ++ String.mk stem2Rev ++ "--/"
      (dg, some ⟨dg, [line1, line2, line3]⟩)
    else st
  else st

/-- `findMostStableHairpin` (dnaUtils.ts lines 211-250): exhaustive search
over end offset, stem length and loop length for the most stable stem/loop
fold. -/
def findMostStableHairpin (sequence : String) : Option StructureAnalysis :=
  (hairpinTriples.foldl (hairpinStep (upperStr sequence).data) (0, none)).2

/-- Number of complementary-pair markers in the middle alignment line of a
reported structure. -/
def midPipes (a : StructureAnalysis) : ℕ := (a.alignment.getD 1 "").data.count '|'

/-- Invariant of the dimer fold state: either nothing has been kept yet and
the best energy is still 0, or the kept structure carries the best energy,
which is strictly negative, and shows at least 2 complementary pairs. -/
def dimerInv (st : ℚ × Option StructureAnalysis) : Prop :=
  (st.2 = none ∧ st.1 = 0) ∨
    ∃ a, st.2 = some a ∧ a.dg = st.1 ∧ st.1 < 0 ∧ 2 ≤ midPipes a

/-- Invariant of the hairpin fold state: either nothing kept and best energy
0, or the kept structure carries the strictly negative best energy. -/
def hairpinInv (st : ℚ × Option StructureAnalysis) : Prop :=
  (st.2 = none ∧ st.1 = 0) ∨ ∃ a, st.2 = some a ∧ a.dg = st.1 ∧ st.1 < 0

/-- Number of complementary pairs found by the inner loop at one shift. -/
def dimerShiftM (q1 q2Rev : List Char) (shift : ℤ) : ℕ :=
  (dimerScanFrom q1 q2Rev shift (max 0 shift).toNat
    ((min ((q1.length : ℤ)) (shift + q2Rev.length) - max 0 shift).toNat)).2.1

/-- Energy found by the inner loop at one shift. -/
def dimerShiftDG (q1 q2Rev : List Char) (shift : ℤ) : ℚ :=
  (dimerScanFrom q1 q2Rev shift (max 0 shift).toNat
    ((min ((q1.length : ℤ)) (shift + q2Rev.length) - max 0 shift).toNat)).2.2

/-- The (pairs, energy) score of one shift. -/
def dimerShiftScore (q1 q2Rev : List Char) (shift : ℤ) : ℕ × ℚ :=
  (dimerShiftM q1 q2Rev shift, dimerShiftDG q1 q2Rev shift)

/-- The observable part of the dimer fold state: the best energy and the
energy of the kept structure, the alignment strings forgotten. -/
def resultDG (st : ℚ × Option StructureAnalysis) : ℚ × Option ℚ :=
  (st.1, st.2.map StructureAnalysis.dg)

/-- The dimer fold step on observable states. -/
def pureStep (q : ℚ × Option ℚ) (s : ℕ × ℚ) : ℚ × Option ℚ :=
  if 2 ≤ s.1 ∧ s.2 < q.1 then (s.2, some s.2) else q

/-- Claim C8: the dimer scorer is symmetric — for every pair of sequences the
two argument orders either both return no structure or both return a
structure with the same dg. -/

theorem strLength_mk (l : List Char) : (String.mk l).length = l.length := rfl

theorem length_mapWithIndex (f : ℕ → Char → Char) (k : ℕ) (l : List Char) :
    (mapWithIndex f k l).length = l.length := by
  induction l generalizing k with
  | nil => rfl
  | cons c cs ih => simp [mapWithIndex, ih]

theorem getD_mapWithIndex (f : ℕ → Char → Char) (l : List Char) (k i : ℕ) (d e : Char)
    (h : i < l.length) :
    (mapWithIndex f k l).getD i d = f (k + i) (l.getD i e) := by
  induction l generalizing k i with
  | nil => simp at h
  | cons c cs ih =>
    cases i with
    | zero => simp [mapWithIndex]
    | succ j =>
      have hj : j < cs.length := by simpa using h
      have harith : k + (j + 1) = (k + 1) + j := by omega
      simpa [mapWithIndex, harith] using ih (k + 1) j hj

theorem getD_map_lt (f : Char → Char) (l : List Char) (i : ℕ) (d e : Char)
    (h : i < l.length) : (l.map f).getD i d = f (l.getD i e) := by
  rw [List.getD_eq_getElem _ d (by simpa using h), List.getD_eq_getElem _ e h,
    List.getElem_map]

theorem getD_reverse_lt (l : List Char) (i : ℕ) (d : Char) (h : i < l.length) :
    l.reverse.getD i d = l.getD (l.length - 1 - i) d := by
  rw [List.getD_eq_getElem _ d (by simpa using h), List.getD_eq_getElem _ d (by omega),
    List.getElem_reverse]

theorem asciiLower_idem (c : Char) : asciiLower (asciiLower c) = asciiLower c := by
  by_cases h1 : c = 'A'
  · subst h1; decide
  by_cases h2 : c = 'B'
  · subst h2; decide
  by_cases h3 : c = 'C'
  · subst h3; decide
  by_cases h4 : c = 'D'
  · subst h4; decide
  by_cases h5 : c = 'E'
  · subst h5; decide
  by_cases h6 : c = 'F'
  · subst h6; decide
  by_cases h7 : c = 'G'
  · subst h7; decide
  by_cases h8 : c = 'H'
  · subst h8; decide
  by_cases h9 : c = 'I'
  · subst h9; decide
  by_cases h10 : c = 'J'
  · subst h10; decide
  by_cases h11 : c = 'K'
  · subst h11; decide
  by_cases h12 : c = 'L'
  · subst h12; decide
  by_cases h13 : c = 'M'
  · subst h13; decide
  by_cases h14 : c = 'N'
  · subst h14; decide
  by_cases h15 : c = 'O'
  · subst h15; decide
  by_cases h16 : c = 'P'
  · subst h16; decide
  by_cases h17 : c = 'Q'
  · subst h17; decide
  by_cases h18 : c = 'R'
  · subst h18; decide
  by_cases h19 : c = 'S'
  · subst h19; decide
  by_cases h20 : c = 'T'
  · subst h20; decide
  by_cases h21 : c = 'U'
  · subst h21; decide
  by_cases h22 : c = 'V'
  · subst h22; decide
  by_cases h23 : c = 'W'
  · subst h23; decide
  by_cases h24 : c = 'X'
  · subst h24; decide
  by_cases h25 : c = 'Y'
  · subst h25; decide
  by_cases h26 : c = 'Z'
  · subst h26; decide
  simp [asciiLower, h1, h2, h3, h4, h5, h6, h7, h8, h9, h10, h11, h12, h13, h14, h15, h16, h17, h18, h19, h20, h21, h22, h23, h24, h25, h26]

theorem asciiUpper_idem (c : Char) : asciiUpper (asciiUpper c) = asciiUpper c := by
  by_cases h1 : c = 'a'
  · subst h1; decide
  by_cases h2 : c = 'b'
  · subst h2; decide
  by_cases h3 : c = 'c'
  · subst h3; decide
  by_cases h4 : c = 'd'
  · subst h4; decide
  by_cases h5 : c = 'e'
  · subst h5; decide
  by_cases h6 : c = 'f'
  · subst h6; decide
  by_cases h7 : c = 'g'
  · subst h7; decide
  by_cases h8 : c = 'h'
  · subst h8; decide
  by_cases h9 : c = 'i'
  · subst h9; decide
  by_cases h10 : c = 'j'
  · subst h10; decide
  by_cases h11 : c = 'k'
  · subst h11; decide
  by_cases h12 : c = 'l'
  · subst h12; decide
  by_cases h13 : c = 'm'
  · subst h13; decide
  by_cases h14 : c = 'n'
  · subst h14; decide
  by_cases h15 : c = 'o'
  · subst h15; decide
  by_cases h16 : c = 'p'
  · subst h16; decide
  by_cases h17 : c = 'q'
  · subst h17; decide
  by_cases h18 : c = 'r'
  · subst h18; decide
  by_cases h19 : c = 's'
  · subst h19; decide
  by_cases h20 : c = 't'
  · subst h20; decide
  by_cases h21 : c = 'u'
  · subst h21; decide
  by_cases h22 : c = 'v'
  · subst h22; decide
  by_cases h23 : c = 'w'
  · subst h23; decide
  by_cases h24 : c = 'x'
  · subst h24; decide
  by_cases h25 : c = 'y'
  · subst h25; decide
  by_cases h26 : c = 'z'
  · subst h26; decide
  simp [asciiUpper, h1, h2, h3, h4, h5, h6, h7, h8, h9, h10, h11, h12, h13, h14, h15, h16, h17, h18, h19, h20, h21, h22, h23, h24, h25, h26]

/-- The inner-loop pairing test of the dimer scorer applies
`getComplement(...).toUpperCase()` to an already-uppercased character; on such
characters it agrees with the uppercase-only complement `compUpper`. -/
theorem upper_comp_upper (c : Char) :
    asciiUpper (complementChar (asciiUpper c)) = compUpper (asciiUpper c) := by
  by_cases h1 : c = 'a'
  · subst h1; decide
  by_cases h2 : c = 'b'
  · subst h2; decide
  by_cases h3 : c = 'c'
  · subst h3; decide
  by_cases h4 : c = 'd'
  · subst h4; decide
  by_cases h5 : c = 'e'
  · subst h5; decide
  by_cases h6 : c = 'f'
  · subst h6; decide
  by_cases h7 : c = 'g'
  · subst h7; decide
  by_cases h8 : c = 'h'
  · subst h8; decide
  by_cases h9 : c = 'i'
  · subst h9; decide
  by_cases h10 : c = 'j'
  · subst h10; decide
  by_cases h11 : c = 'k'
  · subst h11; decide
  by_cases h12 : c = 'l'
  · subst h12; decide
  by_cases h13 : c = 'm'
  · subst h13; decide
  by_cases h14 : c = 'n'
  · subst h14; decide
  by_cases h15 : c = 'o'
  · subst h15; decide
  by_cases h16 : c = 'p'
  · subst h16; decide
  by_cases h17 : c = 'q'
  · subst h17; decide
  by_cases h18 : c = 'r'
  · subst h18; decide
  by_cases h19 : c = 's'
  · subst h19; decide
  by_cases h20 : c = 't'
  · subst h20; decide
  by_cases h21 : c = 'u'
  · subst h21; decide
  by_cases h22 : c = 'v'
  · subst h22; decide
  by_cases h23 : c = 'w'
  · subst h23; decide
  by_cases h24 : c = 'x'
  · subst h24; decide
  by_cases h25 : c = 'y'
  · subst h25; decide
  by_cases h26 : c = 'z'
  · subst h26; decide
  by_cases h27 : c = 'A'
  · subst h27; decide
  by_cases h28 : c = 'T'
  · subst h28; decide
  by_cases h29 : c = 'C'
  · subst h29; decide
  by_cases h30 : c = 'G'
  · subst h30; decide
  simp [asciiUpper, complementChar, compUpper, h1, h2, h3, h4, h5, h6, h7, h8, h9, h10, h11, h12, h13, h14, h15, h16, h17, h18, h19, h20, h21, h22, h23, h24, h25, h26, h27, h28, h29, h30]

/-- Pointwise behaviour of one `bisulfiteConvert` position. -/
theorem bisulfiteConvert_getD (S : String) (M : List ℤ) (i : ℕ) (h : i < S.data.length) :
    (bisulfiteConvert S M).data.getD i ' ' =
      if asciiLower (S.data.getD i ' ') = 'c' ∧ ¬ ((i : ℤ) ∈ M) then 't'
      else S.data.getD i ' ' := by
  show (mapWithIndex _ 0 S.data).getD i ' ' = _
  rw [getD_mapWithIndex _ _ 0 i ' ' ' ' h]
  simp

/-- Claim C1: the bisulfite conversion rule.  For every input strand and every
methylation index set, a cytosine at a position of the set is kept unchanged,
a cytosine at a position outside the set becomes 't', and every non-cytosine
position is unchanged; in particular the OT strand derived from the lowercased
top strand against the methylated-top set keeps exactly the methylated 'c's
and turns every other 'c' into 't'. -/
theorem claim1_bisulfite_conversion_rule (S : String) (M : List ℤ) (i : ℕ)
    (hi : i < S.data.length) (f : String) (mF mR : List ℤ) (j : ℕ)
    (hj : j < f.data.length) :
    bisulfitePointwise S M i ∧ otPointwise f mF mR j := by
  constructor
  · unfold bisulfitePointwise
    rw [bisulfiteConvert_getD S M i hi]
    refine ⟨fun hc => ⟨fun hm => ?kept, fun hm => ?conv⟩, fun hc => ?other⟩
    case kept => rw [if_neg (fun h => h.2 hm)]
    case conv => rw [if_pos ⟨hc, hm⟩]
    case other => rw [if_neg (fun h => hc h.1)]
  · unfold otPointwise
    have hOT : getStrandSequence f mF mR StrandType.OT = bisulfiteConvert (lowerStr f) mF := rfl
    have hjl : j < (lowerStr f).data.length := by simpa [lowerStr] using hj
    rw [hOT, bisulfiteConvert_getD (lowerStr f) mF j hjl]
    refine ⟨fun hc => ⟨fun hm => ?kept2, fun hm => ?conv2⟩, fun hc => ?other2⟩
    case kept2 =>
      rw [if_neg (fun h => h.2 hm)]; exact hc
    case conv2 =>
      have hlc : asciiLower ((lowerStr f).data.getD j ' ') = 'c' := by rw [hc]; decide
      rw [if_pos ⟨hlc, hm⟩]
    case other2 =>
      have hx : (lowerStr f).data.getD j ' ' = asciiLower (f.data.getD j ' ') :=
        getD_map_lt asciiLower f.data j ' ' ' ' hj
      have hnc : ¬ (asciiLower ((lowerStr f).data.getD j ' ') = 'c') := by
        rw [hx, asciiLower_idem, ← hx]; exact hc
      rw [if_neg (fun h => hnc h.1)]

theorem claim1_bisulfite_conversion_rule_witness :
    0 < ("Ca" : String).data.length ∧ 0 < ("ct" : String).data.length ∧
    (bisulfitePointwise "Ca" [(0 : ℤ)] 0 ∧ otPointwise "ct" [] [] 0) :=
  ⟨by decide, by decide,
    claim1_bisulfite_conversion_rule "Ca" [(0 : ℤ)] 0 (by decide) "ct" [] [] 0 (by decide)⟩

/-- Claim C2 counterexample: for the uppercase top strand "A" the derived R
strand holds 't' (the complement of the lowercased top strand) at position 0,
which differs from complement('A') = 'T'; so `deriveStrand(S,...,R)[i] ==
complement(S[i])` fails as stated. -/
theorem claim2_counterexample :
    ¬ ((getStrandSequence "A" [] [] StrandType.R).data.getD 0 ' ' =
        complementChar (("A" : String).data.getD 0 ' ')) := by decide

/-- Claim C2 (amended): for every top strand of length at least 1 and any
methylation sets, F is the lowercased top strand and R is its position-aligned
complement. -/
theorem claim2_strand_derivation_amended (S : String) (mF mR : List ℤ)
    (hS : 1 ≤ S.length) (i : ℕ) (hi : i < S.length) :
    c2AmendedF S mF mR ∧ c2AmendedR S mF mR i := by
  refine ⟨rfl, ?_⟩
  unfold c2AmendedR
  have hR : getStrandSequence S mF mR StrandType.R = getComplement (lowerStr S) := rfl
  have hi2 : i < (lowerStr S).data.length := by
    have hlen : (lowerStr S).data.length = S.data.length := by simp [lowerStr]
    rw [hlen]; exact hi
  rw [hR]
  exact getD_map_lt complementChar (lowerStr S).data i ' ' ' ' hi2

theorem claim2_strand_derivation_amended_witness :
    1 ≤ ("Ac" : String).length ∧ 1 < ("Ac" : String).length ∧
    (c2AmendedF "Ac" [(5 : ℤ)] [(-1 : ℤ)] ∧ c2AmendedR "Ac" [(5 : ℤ)] [(-1 : ℤ)] 1) :=
  ⟨by decide, by decide,
    claim2_strand_derivation_amended "Ac" [(5 : ℤ)] [(-1 : ℤ)] (by decide) 1 (by decide)⟩

theorem length_lowerStr (s : String) : (lowerStr s).length = s.length := by
  show (String.mk (s.data.map asciiLower)).length = s.length
  rw [strLength_mk, List.length_map]; rfl

theorem length_getComplement (s : String) : (getComplement s).length = s.length := by
  show (String.mk (s.data.map complementChar)).length = s.length
  rw [strLength_mk, List.length_map]; rfl

theorem length_bisulfiteConvert (s : String) (M : List ℤ) :
    (bisulfiteConvert s M).length = s.length := by
  show (String.mk (mapWithIndex _ 0 s.data)).length = s.length
  rw [strLength_mk, length_mapWithIndex]; rfl

/-- Claim C3: strand derivation is total (it is a Lean function on arbitrary
strings and arbitrary integer index lists, including negative and out-of-range
indices) and every one of the six derived strands has the length of the input
top strand. -/
theorem claim3_strand_length_invariant (S : String) (mF mR : List ℤ) (t : StrandType) :
    (getStrandSequence S mF mR t).length = S.length := by
  cases t <;>
    simp [getStrandSequence, length_lowerStr, length_getComplement, length_bisulfiteConvert]

/-- Claim C7: searching "ATCGATCG" for "ATCG" with 0 allowed mismatches on
each forward-displayed strand type (F, OT, CTOB) returns exactly the hits
{start 0, end 3} and {start 4, end 7}, both with 0 mismatches, in left-to-right
scan order. -/
theorem claim7_search_concrete :
    searchSequence "ATCGATCG" "ATCG" StrandType.F 0 = [⟨0, 3, 0⟩, ⟨4, 7, 0⟩] ∧
    searchSequence "ATCGATCG" "ATCG" StrandType.OT 0 = [⟨0, 3, 0⟩, ⟨4, 7, 0⟩] ∧
    searchSequence "ATCGATCG" "ATCG" StrandType.CTOB 0 = [⟨0, 3, 0⟩, ⟨4, 7, 0⟩] := by
  decide

theorem length_upperStr (s : String) : (upperStr s).length = s.length := by
  show (String.mk (s.data.map asciiUpper)).length = s.length
  rw [strLength_mk, List.length_map]; rfl

theorem upperStr_empty_iff (t : String) : upperStr t = "" ↔ t = "" := by
  constructor
  · intro h
    have hlen : t.length = 0 := by rw [← length_upperStr t, h]; rfl
    obtain ⟨l⟩ := t
    cases l with
    | nil => rfl
    | cons c cs =>
      rw [strLength_mk] at hlen
      simp at hlen
  · intro h
    subst h
    rfl

theorem iupacMap_no_empty (s : String) (l : List String) (h : iupacMap s = some l) :
    l.contains "" = false := by
  unfold iupacMap at h
  by_cases h1 : s = "A"
  · rw [if_pos h1] at h; cases h; decide
  rw [if_neg h1] at h
  by_cases h2 : s = "a"
  · rw [if_pos h2] at h; cases h; decide
  rw [if_neg h2] at h
  by_cases h3 : s = "T"
  · rw [if_pos h3] at h; cases h; decide
  rw [if_neg h3] at h
  by_cases h4 : s = "t"
  · rw [if_pos h4] at h; cases h; decide
  rw [if_neg h4] at h
  by_cases h5 : s = "C"
  · rw [if_pos h5] at h; cases h; decide
  rw [if_neg h5] at h
  by_cases h6 : s = "c"
  · rw [if_pos h6] at h; cases h; decide
  rw [if_neg h6] at h
  by_cases h7 : s = "G"
  · rw [if_pos h7] at h; cases h; decide
  rw [if_neg h7] at h
  by_cases h8 : s = "g"
  · rw [if_pos h8] at h; cases h; decide
  rw [if_neg h8] at h
  by_cases h9 : s = "R"
  · rw [if_pos h9] at h; cases h; decide
  rw [if_neg h9] at h
  by_cases h10 : s = "Y"
  · rw [if_pos h10] at h; cases h; decide
  rw [if_neg h10] at h
  by_cases h11 : s = "S"
  · rw [if_pos h11] at h; cases h; decide
  rw [if_neg h11] at h
  by_cases h12 : s = "W"
  · rw [if_pos h12] at h; cases h; decide
  rw [if_neg h12] at h
  by_cases h13 : s = "K"
  · rw [if_pos h13] at h; cases h; decide
  rw [if_neg h13] at h
  by_cases h14 : s = "M"
  · rw [if_pos h14] at h; cases h; decide
  rw [if_neg h14] at h
  by_cases h15 : s = "B"
  · rw [if_pos h15] at h; cases h; decide
  rw [if_neg h15] at h
  by_cases h16 : s = "D"
  · rw [if_pos h16] at h; cases h; decide
  rw [if_neg h16] at h
  by_cases h17 : s = "H"
  · rw [if_pos h17] at h; cases h; decide
  rw [if_neg h17] at h
  by_cases h18 : s = "V"
  · rw [if_pos h18] at h; cases h; decide
  rw [if_neg h18] at h
  by_cases h19 : s = "N"
  · rw [if_pos h19] at h; cases h; decide
  rw [if_neg h19] at h
  exact Option.noConfusion h

/-- Claim C9 counterexample: when both the primer base and the template base
are the empty string, `isBaseCompatible` falls through to the strict-equality
branch and returns `true`, so "returns false whenever either input is empty"
fails as stated. -/
theorem claim9_counterexample : isBaseCompatible "" "" = true := by decide

/-- Claim C9 (amended): behaviour of `isBaseCompatible` on empty inputs. -/
theorem claim9_empty_base_amended (p t : String) : c9Amended p t := by
  refine ⟨?_, ?_, ?_⟩
  · rintro ⟨hp, ht⟩
    subst hp
    unfold isBaseCompatible
    rw [show iupacMap (upperStr "") = none from by decide]
    rw [show upperStr "" = "" from rfl]
    simp only [beq_eq_false_iff_ne, ne_eq]
    intro heq
    exact ht ((upperStr_empty_iff t).mp heq.symm)
  · rintro ⟨hp, ht⟩
    subst ht
    unfold isBaseCompatible
    cases hm : iupacMap (upperStr p) with
    | none =>
      rw [show upperStr "" = "" from rfl]
      simp only [beq_eq_false_iff_ne, ne_eq]
      intro heq
      exact hp ((upperStr_empty_iff p).mp heq)
    | some l =>
      rw [show upperStr "" = "" from rfl]
      exact iupacMap_no_empty _ l hm
  · rintro ⟨hp, ht⟩
    subst hp; subst ht
    decide

theorem claim9_empty_base_amended_witness :
    c9Amended "" "A" ∧ c9Amended "A" "" ∧ c9Amended "" "" :=
  ⟨claim9_empty_base_amended "" "A", claim9_empty_base_amended "A" "",
    claim9_empty_base_amended "" ""⟩

/-- Claim C4: for every raw primer sequence whose binding region (after
removing all bracket-delimited tail segments and non-letter characters) is
shorter than 2 bases, `calculateThermodynamics` returns exactly the zero
sentinel {tm 0, dg 0, gc 0}, for every template, MGB flag and settings. -/
theorem claim4_short_sequence_sentinel (raw tmpl : String) (mgb : Bool)
    (s : ThermodynamicSettings) (h : (bindingSeqChars raw).length < 2) :
    calculateThermodynamics raw tmpl mgb s = ⟨0, 0, 0⟩ := by
  unfold calculateThermodynamics
  simp [h]

theorem claim4_short_sequence_sentinel_witness :
    (bindingSeqChars "g[attc]-").length < 2 ∧
    calculateThermodynamics "g[attc]-" "" false DEFAULT_THERMO_SETTINGS = ⟨0, 0, 0⟩ :=
  ⟨by decide,
    claim4_short_sequence_sentinel "g[attc]-" "" false DEFAULT_THERMO_SETTINGS (by decide)⟩

/-- Claim C6: the reported ΔG does not depend on the thermodynamic settings
(salt and concentration only influence the melting temperature), and whenever
the binding region reaches the dinucleotide threshold it equals
ΔH_total − 310.15·ΔS_total/1000. -/
theorem claim6_dg_salt_independent (raw tmpl : String) (mgb : Bool)
    (s1 s2 : ThermodynamicSettings) :
    (calculateThermodynamics raw tmpl mgb s1).dg =
      (calculateThermodynamics raw tmpl mgb s2).dg ∧
    (2 ≤ (bindingSeqChars raw).length →
      (calculateThermodynamics raw tmpl mgb s1).dg =
        (dhdsTotal raw).1 - 310.15 * (dhdsTotal raw).2 / 1000) := by
  constructor
  · by_cases h : (bindingSeqChars raw).length < 2
    · unfold calculateThermodynamics
      simp [h]
    · unfold calculateThermodynamics
      simp [h]
  · intro h2
    have h : ¬ ((bindingSeqChars raw).length < 2) := by omega
    unfold calculateThermodynamics
    simp [h]

theorem claim6_dg_salt_independent_witness :
    2 ≤ (bindingSeqChars "at").length ∧
    (calculateThermodynamics "at" "" false DEFAULT_THERMO_SETTINGS).dg =
      (dhdsTotal "at").1 - 310.15 * (dhdsTotal "at").2 / 1000 :=
  ⟨by decide,
    (claim6_dg_salt_independent "at" "" false DEFAULT_THERMO_SETTINGS
      DEFAULT_THERMO_SETTINGS).2 (by decide)⟩

theorem strData_append (a b : String) : (a ++ b).data = a.data ++ b.data := rfl

theorem dimerScan_count (q1 q2Rev : List Char) (shift : ℤ) (rem i : ℕ) :
    (dimerScanFrom q1 q2Rev shift i rem).1.count '|' =
      (dimerScanFrom q1 q2Rev shift i rem).2.1 := by
  induction rem generalizing i with
  | zero => simp [dimerScanFrom]
  | succ r ih =>
    simp only [dimerScanFrom]
    split
    · rw [List.count_cons_self, ih]
    · rw [List.count_cons_of_ne (by decide), ih]

theorem count_pipe_line2 (k : ℕ) (mc : List Char) :
    ("   " ++ String.mk (List.replicate k ' ') ++ String.mk mc).data.count '|' =
      mc.count '|' := by
  rw [strData_append, strData_append, List.count_append, List.count_append]
  have h1 : ("   " : String).data.count '|' = 0 := by decide
  have h2 : (String.mk (List.replicate k ' ')).data.count '|' = 0 := by
    show (List.replicate k ' ').count '|' = 0
    simp [List.count_replicate]
  rw [h1, h2]
  simp

theorem midPipes_mk (d : ℚ) (x y z : String) :
    midPipes ⟨d, [x, y, z]⟩ = y.data.count '|' := rfl

theorem dimerShiftStep_inv (q1 q2Rev : List Char) (st : ℚ × Option StructureAnalysis)
    (shift : ℤ) (h : dimerInv st) : dimerInv (dimerShiftStep q1 q2Rev st shift) := by
  have hle : st.1 ≤ 0 := by
    rcases h with ⟨_, h0⟩ | ⟨a, _, _, hneg, _⟩
    · exact le_of_eq h0
    · exact le_of_lt hneg
  simp only [dimerShiftStep]
  split
  · exact h
  split
  · next h2 =>
    right
    refine ⟨_, rfl, rfl, lt_of_lt_of_le h2.2 hle, ?_⟩
    rw [midPipes_mk, count_pipe_line2, dimerScan_count]
    exact h2.1
  · exact h

theorem foldl_dimerInv (q1 q2Rev : List Char) (shifts : List ℤ)
    (st : ℚ × Option StructureAnalysis) (h : dimerInv st) :
    dimerInv (shifts.foldl (dimerShiftStep q1 q2Rev) st) := by
  induction shifts generalizing st with
  | nil => exact h
  | cons s rest ih => exact ih _ (dimerShiftStep_inv q1 q2Rev st s h)

theorem hairpinStep_inv (seq : List Char) (st : ℚ × Option StructureAnalysis)
    (p : ℕ × ℕ × ℕ) (h : hairpinInv st) : hairpinInv (hairpinStep seq st p) := by
  have hle : st.1 ≤ 0 := by
    rcases h with ⟨_, h0⟩ | ⟨a, _, _, hneg⟩
    · exact le_of_eq h0
    · exact le_of_lt hneg
  simp only [hairpinStep]
  split_ifs with h1 h2 h3
  · exact h
  · right
    exact ⟨_, rfl, rfl, lt_of_lt_of_le h3 hle⟩
  · exact h
  · exact h

theorem foldl_hairpinInv (seq : List Char) (ps : List (ℕ × ℕ × ℕ))
    (st : ℚ × Option StructureAnalysis) (h : hairpinInv st) :
    hairpinInv (ps.foldl (hairpinStep seq) st) := by
  induction ps generalizing st with
  | nil => exact h
  | cons p rest ih => exact ih _ (hairpinStep_inv seq st p h)

/-- Claim C10: whenever `findMostStableDimer` reports a structure its energy
is strictly negative and its match line shows at least 2 complementary pairs,
and whenever `findMostStableHairpin` reports a structure its energy is
strictly negative; an alignment scoring ≥ 0 is never returned. -/
theorem claim10_structures_stabilizing :
    (∀ (s1 s2 : String) (a : StructureAnalysis),
        findMostStableDimer s1 s2 = some a → a.dg < 0 ∧ 2 ≤ midPipes a) ∧
    (∀ (s : String) (b : StructureAnalysis),
        findMostStableHairpin s = some b → b.dg < 0) := by
  constructor
  · intro s1 s2 a hd
    unfold findMostStableDimer at hd
    have hinv := foldl_dimerInv (upperStr s1).data ((upperStr s2).data).reverse
      (dimerShifts (upperStr s1).data.length (upperStr s2).data.length)
      (0, none) (Or.inl ⟨rfl, rfl⟩)
    rcases hinv with ⟨hnone, _⟩ | ⟨a2, hsome, hdg, hneg, hpipes⟩
    · rw [hnone] at hd
      exact Option.noConfusion hd
    · rw [hsome] at hd
      cases hd
      exact ⟨hdg ▸ hneg, hpipes⟩
  · intro s b hh
    unfold findMostStableHairpin at hh
    have hinv := foldl_hairpinInv (upperStr s).data hairpinTriples (0, none)
      (Or.inl ⟨rfl, rfl⟩)
    rcases hinv with ⟨hnone, _⟩ | ⟨b2, hsome, hdg, hneg⟩
    · rw [hnone] at hh
      exact Option.noConfusion hh
    · rw [hsome] at hh
      cases hh
      exact hdg ▸ hneg

set_option maxRecDepth 8000 in
theorem claim10_structures_stabilizing_witness :
    findMostStableDimer "AT" "AT" =
      some ⟨-4, ["5' AT 3'", "   ||", "3' TA 5'"]⟩ ∧
    ((-4 : ℚ) < 0 ∧
      2 ≤ midPipes ⟨-4, ["5' AT 3'", "   ||", "3' TA 5'"]⟩) ∧
    findMostStableHairpin "GGGAAACCC" =
      some ⟨-4.8, ["5'-GGG--\\", "   |||   AAA", "3'-CCC--/"]⟩ ∧
    ((-4.8 : ℚ) < 0) :=
  ⟨by with_unfolding_all rfl,
    claim10_structures_stabilizing.1 "AT" "AT"
      ⟨-4, ["5' AT 3'", "   ||", "3' TA 5'"]⟩ (by with_unfolding_all rfl),
    by with_unfolding_all rfl,
    claim10_structures_stabilizing.2 "GGGAAACCC"
      ⟨-4.8, ["5'-GGG--\\", "   |||   AAA", "3'-CCC--/"]⟩ (by with_unfolding_all rfl)⟩

theorem compUpper_invol (x : Char) : compUpper (compUpper x) = x := by
  by_cases hA : x = 'A'
  · subst hA; decide
  by_cases hT : x = 'T'
  · subst hT; decide
  by_cases hC : x = 'C'
  · subst hC; decide
  by_cases hG : x = 'G'
  · subst hG; decide
  have h1 : compUpper x = x := by
    unfold compUpper
    rw [if_neg hA, if_neg hT, if_neg hC, if_neg hG]
  rw [h1, h1]

theorem beq_compUpper_symm (u v : Char) : (u == compUpper v) = (v == compUpper u) := by
  rw [Bool.eq_iff_iff]
  simp only [beq_iff_eq]
  constructor
  · intro h; rw [h, compUpper_invol]
  · intro h; rw [h, compUpper_invol]

/-- The dimer pairing test is symmetric on uppercased characters. -/
theorem dimerMatch_symm (x y : Char) :
    dimerMatch (asciiUpper x) (asciiUpper y) = dimerMatch (asciiUpper y) (asciiUpper x) := by
  unfold dimerMatch
  rw [upper_comp_upper, upper_comp_upper]
  exact beq_compUpper_symm (asciiUpper x) (asciiUpper y)

theorem dimerScan_m_sum (q1 q2Rev : List Char) (shift : ℤ) :
    ∀ (rem i : ℕ), (dimerScanFrom q1 q2Rev shift i rem).2.1 =
      ∑ t in Finset.range rem,
        cond (dimerMatch (q1.getD (i + t) ' ')
          (q2Rev.getD (((i + t : ℕ) : ℤ) - shift).toNat ' ')) 1 0 := by
  intro rem
  induction rem with
  | zero => intro i; simp [dimerScanFrom]
  | succ r ih =>
    intro i
    rw [Finset.sum_range_succ']
    have hstep : ∀ t : ℕ, i + (t + 1) = (i + 1) + t := fun t => by omega
    simp only [Nat.add_zero]
    simp only [dimerScanFrom]
    split
    · next h =>
      rw [h]
      rw [ih (i + 1)]
      have hc : (Finset.range r).sum
          (fun t => cond (dimerMatch (q1.getD (i + (t + 1)) ' ')
            (q2Rev.getD (((i + (t + 1) : ℕ) : ℤ) - shift).toNat ' ')) 1 0) =
          (Finset.range r).sum
          (fun t => cond (dimerMatch (q1.getD ((i + 1) + t) ' ')
            (q2Rev.getD ((((i + 1) + t : ℕ) : ℤ) - shift).toNat ' ')) 1 0) :=
        Finset.sum_congr rfl (fun t _ => by rw [hstep t])
      rw [hc]
      simp
    · next h =>
      rw [Bool.not_eq_true] at h
      rw [h]
      rw [ih (i + 1)]
      have hc : (Finset.range r).sum
          (fun t => cond (dimerMatch (q1.getD (i + (t + 1)) ' ')
            (q2Rev.getD (((i + (t + 1) : ℕ) : ℤ) - shift).toNat ' ')) 1 0) =
          (Finset.range r).sum
          (fun t => cond (dimerMatch (q1.getD ((i + 1) + t) ' ')
            (q2Rev.getD ((((i + 1) + t : ℕ) : ℤ) - shift).toNat ' ')) 1 0) :=
        Finset.sum_congr rfl (fun t _ => by rw [hstep t])
      rw [hc]
      simp

theorem dimerScan_dg_eq (q1 q2Rev : List Char) (shift : ℤ) :
    ∀ (rem i : ℕ), (dimerScanFrom q1 q2Rev shift i rem).2.2 =
      -2 * ((dimerScanFrom q1 q2Rev shift i rem).2.1 : ℚ) +
        (0.4) * ((rem : ℚ) - ((dimerScanFrom q1 q2Rev shift i rem).2.1 : ℚ)) := by
  intro rem
  induction rem with
  | zero => intro i; simp [dimerScanFrom]
  | succ r ih =>
    intro i
    simp only [dimerScanFrom]
    split
    · have := ih (i + 1)
      push_cast
      push_cast at this
      rw [this]
      ring
    · have := ih (i + 1)
      push_cast
      push_cast at this
      rw [this]
      ring

theorem dimerShiftStep_obs (q1 q2Rev : List Char) (st : ℚ × Option StructureAnalysis)
    (shift : ℤ) :
    resultDG (dimerShiftStep q1 q2Rev st shift) =
      pureStep (resultDG st) (dimerShiftScore q1 q2Rev shift) := by
  simp only [dimerShiftStep, pureStep, dimerShiftScore, dimerShiftM, dimerShiftDG, resultDG]
  split
  · next hskip =>
    have hrem : ((min ((q1.length : ℤ)) (shift + q2Rev.length) - max 0 shift).toNat) = 0 := by
      omega
    rw [hrem]
    simp [dimerScanFrom]
  · next hns =>
    split
    · simp
    · rfl

theorem foldl_dimer_obs (q1 q2Rev : List Char) (shifts : List ℤ)
    (st : ℚ × Option StructureAnalysis) :
    resultDG (shifts.foldl (dimerShiftStep q1 q2Rev) st) =
      (shifts.map (dimerShiftScore q1 q2Rev)).foldl pureStep (resultDG st) := by
  induction shifts generalizing st with
  | nil => rfl
  | cons s rest ih =>
    rw [List.foldl_cons, List.map_cons, List.foldl_cons, ih, dimerShiftStep_obs]

theorem findMostStableDimer_obs (s1 s2 : String) :
    Option.map StructureAnalysis.dg (findMostStableDimer s1 s2) =
      (((dimerShifts (upperStr s1).data.length (upperStr s2).data.length).map
        (dimerShiftScore (upperStr s1).data ((upperStr s2).data.reverse))).foldl
          pureStep (0, none)).2 := by
  show (resultDG ((dimerShifts (upperStr s1).data.length (upperStr s2).data.length).foldl
    (dimerShiftStep (upperStr s1).data ((upperStr s2).data.reverse)) (0, none))).2 = _
  rw [foldl_dimer_obs]
  rfl

theorem getD_upper (a : List Char) (i : ℕ) (hi : i < a.length) :
    (a.map asciiUpper).getD i ' ' = asciiUpper (a.getD i ' ') :=
  getD_map_lt asciiUpper a i ' ' ' ' hi

theorem getD_upper_rev (b : List Char) (d : ℕ) (hd : d < b.length) :
    ((b.map asciiUpper).reverse).getD d ' ' =
      asciiUpper (b.getD (b.length - 1 - d) ' ') := by
  rw [getD_reverse_lt (b.map asciiUpper) d ' ' (by simpa using hd), List.length_map]
  exact getD_map_lt asciiUpper b (b.length - 1 - d) ' ' ' ' (by omega)

/-- One aligned pair of the dimer scan is scored the same from either side:
position i1 of the first sequence against the reversed second sequence pairs
the same two characters as position i2 of the second sequence against the
reversed first sequence, and the pairing test is symmetric. -/
theorem dimer_term_symm (a b : List Char) (sL sR : ℤ) (i1 i2 : ℕ)
    (h1 : i1 < a.length) (h2 : i2 < b.length)
    (hd1 : ((i1 : ℤ) - sL).toNat < b.length)
    (hd2 : ((i2 : ℤ) - sR).toNat < a.length)
    (hb : b.length - 1 - ((i1 : ℤ) - sL).toNat = i2)
    (ha : a.length - 1 - ((i2 : ℤ) - sR).toNat = i1) :
    cond (dimerMatch ((a.map asciiUpper).getD i1 ' ')
        (((b.map asciiUpper).reverse).getD ((i1 : ℤ) - sL).toNat ' ')) 1 0 =
      (cond (dimerMatch ((b.map asciiUpper).getD i2 ' ')
        (((a.map asciiUpper).reverse).getD ((i2 : ℤ) - sR).toNat ' ')) 1 0 : ℕ) := by
  rw [getD_upper a i1 h1, getD_upper_rev b (((i1 : ℤ) - sL).toNat) hd1,
    getD_upper b i2 h2, getD_upper_rev a (((i2 : ℤ) - sR).toNat) hd2,
    hb, ha, dimerMatch_symm]

/-- The number of complementary pairs on one anti-diagonal is the same from
either argument order. -/
theorem dimerShiftM_symm (a b : List Char) (j : ℕ) :
    dimerShiftM (a.map asciiUpper) ((b.map asciiUpper).reverse)
        ((j : ℤ) - ((b.length : ℤ) - 1)) =
      dimerShiftM (b.map asciiUpper) ((a.map asciiUpper).reverse)
        ((j : ℤ) - ((a.length : ℤ) - 1)) := by
  unfold dimerShiftM
  rw [dimerScan_m_sum, dimerScan_m_sum]
  simp only [List.length_map, List.length_reverse]
  rw [show ((min ((a.length : ℤ)) (((j : ℤ) - ((b.length : ℤ) - 1)) + (b.length : ℤ)) -
        max 0 ((j : ℤ) - ((b.length : ℤ) - 1))).toNat) =
      ((min ((b.length : ℤ)) (((j : ℤ) - ((a.length : ℤ) - 1)) + (a.length : ℤ)) -
        max 0 ((j : ℤ) - ((a.length : ℤ) - 1))).toNat) from by omega]
  rw [← Finset.sum_range_reflect]
  apply Finset.sum_congr rfl
  intro t ht
  rw [Finset.mem_range] at ht
  exact dimer_term_symm a b _ _ _ _ (by omega) (by omega) (by omega) (by omega)
    (by omega) (by omega)

/-- The energy of one anti-diagonal is the same from either argument order. -/
theorem dimerShiftDG_symm (a b : List Char) (j : ℕ) :
    dimerShiftDG (a.map asciiUpper) ((b.map asciiUpper).reverse)
        ((j : ℤ) - ((b.length : ℤ) - 1)) =
      dimerShiftDG (b.map asciiUpper) ((a.map asciiUpper).reverse)
        ((j : ℤ) - ((a.length : ℤ) - 1)) := by
  have hm := dimerShiftM_symm a b j
  unfold dimerShiftM at hm
  simp only [List.length_map, List.length_reverse] at hm
  unfold dimerShiftDG
  rw [dimerScan_dg_eq, dimerScan_dg_eq]
  simp only [List.length_map, List.length_reverse]
  rw [hm]
  rw [show ((min ((a.length : ℤ)) (((j : ℤ) - ((b.length : ℤ) - 1)) + (b.length : ℤ)) -
        max 0 ((j : ℤ) - ((b.length : ℤ) - 1))).toNat) =
      ((min ((b.length : ℤ)) (((j : ℤ) - ((a.length : ℤ) - 1)) + (a.length : ℤ)) -
        max 0 ((j : ℤ) - ((a.length : ℤ) - 1))).toNat) from by omega]

/-- The per-shift score lists of the two argument orders coincide. -/
theorem dimer_scores_symm (a b : List Char) :
    (dimerShifts (a.map asciiUpper).length (b.map asciiUpper).length).map
        (dimerShiftScore (a.map asciiUpper) ((b.map asciiUpper).reverse)) =
      (dimerShifts (b.map asciiUpper).length (a.map asciiUpper).length).map
        (dimerShiftScore (b.map asciiUpper) ((a.map asciiUpper).reverse)) := by
  simp only [List.length_map]
  unfold dimerShifts
  rw [List.map_map, List.map_map]
  rw [Nat.add_comm b.length a.length]
  apply List.map_congr_left
  intro j hj
  simp only [Function.comp_apply]
  unfold dimerShiftScore
  rw [dimerShiftM_symm a b j, dimerShiftDG_symm a b j]

theorem claim8_dimer_symmetry (s1 s2 : String) :
    Option.map StructureAnalysis.dg (findMostStableDimer s1 s2) =
      Option.map StructureAnalysis.dg (findMostStableDimer s2 s1) := by
  rw [findMostStableDimer_obs, findMostStableDimer_obs]
  rw [show (upperStr s1).data = s1.data.map asciiUpper from rfl,
    show (upperStr s2).data = s2.data.map asciiUpper from rfl]
  rw [dimer_scores_symm s1.data s2.data]
